import Mathlib

/-!
# Verification of the hfos-robot control core

Shallow embedding of the two source files of `Hackerfleet/hfos-robot`:

* `isomer/robot/machineroom.py` — translation of joystick control updates
  into 3-byte servo frames for the "maestro" (compact) protocol or
  separator/terminator framed text commands for the delimited protocol,
  with a per-channel last-sent-value map (`_values`) used for
  send-on-change suppression.
* `isomer/robot/rcmanager.py` — the remote-control session arbiter
  (`remote_controller` holds `None` or the uuid string of the single
  client currently authorized to send control data).

Conventions of the embedding:

* Python floats reaching `on_control_update` are embedded as rationals.
  This is exact for everything the code does with them: the range guard
  only compares (`raw < -1 or raw > 1`), `raw * 128` multiplies a binary
  float by a power of two (no rounding), and `int(...)` truncates toward
  zero.  So every reachable float computation is mirrored exactly on `ℚ`.
* Python `bytes([n])` raises `ValueError` unless `0 ≤ n ≤ 255`; byte-frame
  construction is therefore `Option`-valued, `none` marking the exception.
* Frames actually written to the serial port are collected in a
  `List Frame`; a send that is dropped (port closed, or the length check
  fails) contributes nothing to that list.
-/

namespace HfosRobot

/-- Python `int(x)` applied to a float: truncation toward zero
(floor for nonnegative arguments, ceiling for negative ones). -/
def intTrunc (q : ℚ) : ℤ := if 0 ≤ q then ⌊q⌋ else ⌈q⌉

/-- A byte sequence ready for (attempted) transmission. -/
abbrev Frame := List ℕ

namespace Machineroom

/-- The named logical actuators of `self.targets`. -/
inductive Target
  | machine
  | rudder
  | pump
deriving DecidableEq

/-- `self.targets = {'machine': 1, 'rudder': 0, 'pump': 2}`. -/
def targets : Target → ℕ
  | .machine => 1
  | .rudder => 0
  | .pump => 2

/-- One entry of `controller_mapping['axes']`: target name plus the
optional `'inverted'` flag. -/
structure AxisBinding where
  name : Target
  inverted : Bool
deriving DecidableEq

/-- `controller_mapping['axes']`: axis 1 drives `machine` (inverted),
axis 2 drives `rudder`.  Python dicts iterate in insertion order. -/
def axes_mapping : List (ℕ × AxisBinding) :=
  [(1, ⟨Target.machine, true⟩), (2, ⟨Target.rudder, false⟩)]

/-- `controller_mapping['buttons']`: button 3 drives `pump`. -/
def buttons_mapping : List (ℕ × Target) := [(3, Target.pump)]

/-- `self._machine_channel = 1`. -/
def machine_channel : ℕ := 1

/-- `self._rudder_channel = 0`. -/
def rudder_channel : ℕ := 0

/-- `self._pump_channel = 2`. -/
def pump_channel : ℕ := 2

/-- Byte constants of the delimited protocol: `servo = b's'`. -/
def servo : ℕ := 0x73

/-- `pin = b'p'`. -/
def pin_code : ℕ := 0x70

/-- `sep = b','`. -/
def sep : ℕ := 0x2c

/-- `terminator = bytes(chr(13))`, the CR byte. -/
def terminator : ℕ := 0x0d

/-- The mutable component state: `self.maestro`, `self._serial_open` and
`self._values` (channel → last value written into the map; initialized
to 0 for the three configured channels, and only channels 0, 1, 2 are
ever read, so a total function defaulting to 0 is faithful). -/
structure MRState where
  maestro : Bool
  serial_open : Bool
  values : ℕ → ℤ

/-- State after `__init__`: `maestro = True`, `_serial_open = False`,
all configured channels mapped to 0. -/
def initialState : MRState :=
  { maestro := true, serial_open := false, values := fun _ => 0 }

/-- `Machineroom._send_command`: returns the list of frames actually
written to the port (empty when the port is closed or when the final
command — terminator included in non-maestro mode — is not exactly
3 bytes long). -/
def send_command (s : MRState) (command : Frame) : List Frame :=
  if s.serial_open = false then []
  else
    let cmd := if s.maestro = false then command ++ [terminator] else command
    if cmd.length ≠ 3 then [] else [cmd]

/-- `Machineroom._handle_servo`, frame construction only.  In maestro
mode the value saturates via `min(value, 255)` and the frame is
`bytes([0xff]) + bytes([channel]) + bytes([value])`; in delimited mode
it is `servo + sep + bytes([channel]) + sep + bytes([value])`.
`none` models the `ValueError` that `bytes([n])` raises outside 0..255. -/
def handle_servo (maestro : Bool) (channel : ℕ) (value : ℤ) : Option Frame :=
  if maestro then
    let v := min value 255
    if channel ≤ 255 ∧ 0 ≤ v then some [0xff, channel, v.toNat] else none
  else
    if channel ≤ 255 ∧ 0 ≤ value ∧ value ≤ 255 then
      some [servo, sep, channel, sep, value.toNat]
    else none

/-- `_handle_servo` including its final `self._send_command(command)`:
the result is the list of frames written. -/
def handle_servo_send (s : MRState) (channel : ℕ) (value : ℤ) :
    Option (List Frame) :=
  (handle_servo s.maestro channel value).map (send_command s)

/-- `Machineroom._set_digital_pin`, frame construction only:
`mode = 255 if value >= 127 else 0`; in delimited mode the frame is
`pin + sep + bytes([pin]) + sep + bytes([mode])`, in maestro mode the
pin write is delegated to `_handle_servo(pin, mode)`. -/
def set_digital_pin (maestro : Bool) (pinNo : ℕ) (value : ℤ) : Option Frame :=
  let mode : ℤ := if 127 ≤ value then 255 else 0
  if maestro = false then
    if pinNo ≤ 255 then some [pin_code, sep, pinNo, sep, mode.toNat] else none
  else
    handle_servo maestro pinNo mode

/-- `_set_digital_pin` including the send of the constructed frame. -/
def set_digital_pin_send (s : MRState) (pinNo : ℕ) (value : ℤ) :
    Option (List Frame) :=
  (set_digital_pin s.maestro pinNo value).map (send_command s)

/-- The payload of a `control_update` event: `controldata['axes']` and
`controldata['buttons']`, keyed by controller index. -/
structure ControlData where
  axes : ℕ → ℚ
  buttons : ℕ → ℤ

/-- Lines 286–289 of `on_control_update`: the per-axis value mapping.
`min(128 - int(raw * 128), 255)` when the binding carries the
`'inverted'` flag, `min(128 + int(raw * 128), 255)` otherwise. -/
def normalize_axis (inverted : Bool) (raw : ℚ) : ℤ :=
  if inverted then min (128 - intTrunc (raw * 128)) 255
  else min (128 + intTrunc (raw * 128)) 255

/-- The axes loop of `on_control_update`.  Returns
`some (aborted, state, written frames)`; `aborted = true` mirrors the
`return` executed on the first out-of-range raw value (which skips the
rest of the handler, buttons included). `none` marks an uncaught
`ValueError` from byte construction. -/
def process_axes (cd : ControlData) :
    MRState → List (ℕ × AxisBinding) → Option (Bool × MRState × List Frame)
  | s, [] => some (false, s, [])
  | s, (key, item) :: rest =>
    let raw := cd.axes key
    if raw < -1 ∨ raw > 1 then some (true, s, [])
    else
      let new_value := normalize_axis item.inverted raw
      let target := targets item.name
      if s.values target ≠ new_value then
        match handle_servo_send s target new_value with
        | none => none
        | some frames =>
          let s' : MRState :=
            { s with values := Function.update s.values target new_value }
          match process_axes cd s' rest with
          | none => none
          | some (b, s'', out) => some (b, s'', frames ++ out)
      else
        process_axes cd s rest

/-- The buttons loop of `on_control_update`: the raw button value is
compared against and stored into `_values` unmodified, while the frame
sent is derived from it by `_set_digital_pin`. -/
def process_buttons (cd : ControlData) :
    MRState → List (ℕ × Target) → Option (MRState × List Frame)
  | s, [] => some (s, [])
  | s, (key, name) :: rest =>
    let new_value := cd.buttons key
    let target := targets name
    if s.values target ≠ new_value then
      match set_digital_pin_send s target new_value with
      | none => none
      | some frames =>
        let s' : MRState :=
          { s with values := Function.update s.values target new_value }
        match process_buttons cd s' rest with
        | none => none
        | some (s'', out) => some (s'', frames ++ out)
    else
      process_buttons cd s rest

/-- `Machineroom.on_control_update`: axes first (early `return` on an
out-of-range raw value aborts everything, buttons included), then
buttons. -/
def on_control_update (cd : ControlData) (s : MRState) :
    Option (MRState × List Frame) :=
  match process_axes cd s axes_mapping with
  | none => none
  | some (true, s', out) => some (s', out)
  | some (false, s', out) =>
    match process_buttons cd s' buttons_mapping with
    | none => none
    | some (s'', out2) => some (s'', out ++ out2)

/-- `b'l,1'` sent by `opened` in delimited mode. -/
def hello_frame : Frame := [0x6c, sep, 0x31]

/-- `b'v'` sent by `opened` in delimited mode. -/
def version_frame : Frame := [0x76]

/-- `b'l,0'` sent by `opened` in delimited mode. -/
def quiet_frame : Frame := [0x6c, sep, 0x30]

/-- `b'm,HFOS Control'` sent by `opened` in delimited mode. -/
def ident_frame : Frame :=
  [0x6d, sep, 0x48, 0x46, 0x4f, 0x53, 0x20, 0x43, 0x6f, 0x6e, 0x74, 0x72,
   0x6f, 0x6c]

/-- `Machineroom.opened`: sets `_serial_open = True`, then (in maestro
mode) neutralizes machine, rudder and pump; in delimited mode the servo
writes are bracketed by the greeting/version and quiet/identification
sends.  `_values` is *not* touched here. -/
def opened (s0 : MRState) : Option (MRState × List Frame) :=
  let s : MRState := { s0 with serial_open := true }
  let pre : List Frame :=
    if s.maestro = false then
      send_command s hello_frame ++ send_command s version_frame
    else []
  match handle_servo_send s machine_channel 0 with
  | none => none
  | some f1 =>
    match handle_servo_send s rudder_channel 127 with
    | none => none
    | some f2 =>
      match set_digital_pin_send s pump_channel 0 with
      | none => none
      | some f3 =>
        let post : List Frame :=
          if s.maestro = false then
            send_command s quiet_frame ++ send_command s ident_frame
          else []
        some (s, pre ++ f1 ++ f2 ++ f3 ++ post)

/-- The two kinds of events the claims exercise, in reactor order:
handlers run to completion one at a time. -/
inductive MREvent
  | opened
  | control_update (cd : ControlData)

/-- Dispatch of one event to its handler. -/
def step (s : MRState) : MREvent → Option (MRState × List Frame)
  | .opened => opened s
  | .control_update cd => on_control_update cd s

/-- A whole event trace, concatenating the frames written by each
handler in order. -/
def run (s : MRState) : List MREvent → Option (MRState × List Frame)
  | [] => some (s, [])
  | e :: rest =>
    match step s e with
    | none => none
    | some (s', out) =>
      match run s' rest with
      | none => none
      | some (s'', out') => some (s'', out ++ out')

/-- The three neutralization frames of `opened` in maestro mode:
machine (channel 1) to 0, rudder (channel 0) to 127, pump (channel 2,
as a servo write of mode 0) to 0, in this order. -/
def startup_frames : List Frame :=
  [[0xff, machine_channel, 0], [0xff, rudder_channel, 127],
   [0xff, pump_channel, 0]]


/-- `clamp(x, lo, hi)` as written in the spec. -/
def clamp (x lo hi : ℤ) : ℤ := min (max x lo) hi

/-- The axis mapping as the spec states it, for comparison with the
code's `normalize_axis`: `clamp(128 ± round(raw * 128), 0, 255)` with
round-to-nearest (this is the spec's formula, not the code's). -/
def normalize_axis_spec (inverted : Bool) (raw : ℚ) : ℤ :=
  if inverted then clamp (128 - round (raw * 128)) 0 255
  else clamp (128 + round (raw * 128)) 0 255

/-- The truncation-based fully clamped mapping: what the spec formula
becomes once `round` is corrected to Python's truncating `int`. -/
def normalize_axis_clamped (inverted : Bool) (raw : ℚ) : ℤ :=
  if inverted then clamp (128 - intTrunc (raw * 128)) 0 255
  else clamp (128 + intTrunc (raw * 128)) 0 255

/-- A control update with every axis at 0 and every button at 0. -/
def zero_update : ControlData := ⟨fun _ => 0, fun _ => 0⟩

/-- A control update whose axis 1 (machine) value 2 is out of range. -/
def bad_axis1_update : ControlData := ⟨fun k => if k = 1 then 2 else 0, fun _ => 0⟩

/-- A control update whose axis 2 (rudder) value 2 is out of range,
while axis 1 (machine) is in range at 0. -/
def bad_axis2_update : ControlData := ⟨fun k => if k = 2 then 2 else 0, fun _ => 0⟩

/-- A control update whose computed values all equal the initial stored
values (machine inverted at raw 1 gives 0, rudder at raw -1 gives 0,
pump at 0). -/
def neutral_update : ControlData := ⟨fun k => if k = 1 then 1 else -1, fun _ => 0⟩

/-- The component state right after `opened` ran from `__init__`
(maestro protocol, port open, all values 0). -/
def openState : MRState := { maestro := true, serial_open := true, values := fun _ => 0 }

/-- A state in delimited (non-maestro) mode with the port open. -/
def delimState : MRState := { maestro := false, serial_open := true, values := fun _ => 0 }

/-- An open maestro-mode state whose stored values already equal what
`zero_update` computes (machine 128, rudder 128, pump 0). -/
def steadyState : MRState :=
  { maestro := true, serial_open := true, values := fun c => if c = 2 then 0 else 128 }

end Machineroom

namespace RemoteControlManager

open Machineroom (ControlData)

/-- Python truthiness of `self.remote_controller`, which is either
`None` or a client uuid string: `None` and the empty string are falsy. -/
def falsy : Option String → Bool
  | none => true
  | some u => u = ""

/-- The reply dict fired back to the requesting client (`component` is
constant and omitted). -/
structure Reply where
  action : String
  data : Bool
deriving DecidableEq

/-- `RemoteControlManager.control_request`: grants (and records the
client uuid) iff `not self.remote_controller`; otherwise replies with
`data = False` and leaves the holder unchanged. -/
def control_request (client_uuid : String) (rc : Option String) :
    Option String × Reply :=
  if falsy rc then (some client_uuid, { action := "control_request", data := true })
  else (rc, { action := "control_request", data := false })

/-- `RemoteControlManager.control_release`: only the current holder
resets the session and gets the acknowledgement. -/
def control_release (client_uuid : String) (rc : Option String) :
    Option String × Option Reply :=
  if rc = some client_uuid then
    (none, some { action := "control_release", data := true })
  else (rc, none)

/-- `RemoteControlManager.data`: forwards the payload to the
machineroom (as a `control_update` event) iff the sending client is the
current holder; the session state is never modified here. -/
def data (client_uuid : String) (payload : ControlData) (rc : Option String) :
    Option String × Option ControlData :=
  if rc = some client_uuid then (rc, some payload) else (rc, none)

end RemoteControlManager

/-! ## Basic facts about the embedded operations -/

namespace Machineroom

lemma intTrunc_mono {q1 q2 : ℚ} (h : q1 ≤ q2) : intTrunc q1 ≤ intTrunc q2 := by
  unfold intTrunc
  by_cases h1 : 0 ≤ q1
  · rw [if_pos h1, if_pos (le_trans h1 h)]
    exact Int.floor_mono h
  · rw [if_neg h1]
    by_cases h2 : 0 ≤ q2
    · rw [if_pos h2]
      calc ⌈q1⌉ ≤ 0 := Int.ceil_le.mpr (by exact_mod_cast le_of_not_le h1)
        _ ≤ ⌊q2⌋ := Int.le_floor.mpr (by exact_mod_cast h2)
    · rw [if_neg h2]
      exact Int.ceil_mono h

lemma intTrunc_le_128 {q : ℚ} (h : q ≤ 128) : intTrunc q ≤ 128 := by
  unfold intTrunc
  by_cases h0 : 0 ≤ q
  · rw [if_pos h0]
    have : (⌊q⌋ : ℚ) ≤ 128 := le_trans (Int.floor_le q) h
    exact_mod_cast this
  · rw [if_neg h0]
    calc ⌈q⌉ ≤ 0 := Int.ceil_le.mpr (by exact_mod_cast le_of_not_le h0)
      _ ≤ 128 := by norm_num

lemma neg_128_le_intTrunc {q : ℚ} (h : -128 ≤ q) : -128 ≤ intTrunc q := by
  unfold intTrunc
  by_cases h0 : 0 ≤ q
  · rw [if_pos h0]
    calc (-128 : ℤ) ≤ 0 := by norm_num
      _ ≤ ⌊q⌋ := Int.le_floor.mpr (by exact_mod_cast h0)
  · rw [if_neg h0]
    have : (-128 : ℚ) ≤ ⌈q⌉ := le_trans h (Int.le_ceil q)
    exact_mod_cast this

lemma raw_mul_le {raw : ℚ} (h : raw ≤ 1) : raw * 128 ≤ 128 := by nlinarith

lemma neg_le_raw_mul {raw : ℚ} (h : -1 ≤ raw) : -128 ≤ raw * 128 := by nlinarith

lemma normalize_axis_nonneg {raw : ℚ} (inverted : Bool)
    (h1 : -1 ≤ raw) (h2 : raw ≤ 1) : 0 ≤ normalize_axis inverted raw := by
  have ht1 : intTrunc (raw * 128) ≤ 128 := intTrunc_le_128 (raw_mul_le h2)
  have ht2 : -128 ≤ intTrunc (raw * 128) := neg_128_le_intTrunc (neg_le_raw_mul h1)
  unfold normalize_axis
  rcases inverted with _ | _ <;> simp only [if_true, if_false, Bool.false_eq_true] <;>
    exact le_min (by omega) (by norm_num)

lemma normalize_axis_le_255 (inverted : Bool) (raw : ℚ) :
    normalize_axis inverted raw ≤ 255 := by
  unfold normalize_axis
  rcases inverted with _ | _ <;> simp [min_le_right]

lemma targets_le_255 (t : Target) : targets t ≤ 255 := by
  rcases t with _ | _ | _ <;> simp [targets]

lemma send_command_closed {s : MRState} (h : s.serial_open = false)
    (cmd : Frame) : send_command s cmd = [] := by
  simp [send_command, h]

lemma handle_servo_some (maestro : Bool) {channel : ℕ} {value : ℤ}
    (hch : channel ≤ 255) (h0 : 0 ≤ value) (h255 : value ≤ 255) :
    ∃ fr, handle_servo maestro channel value = some fr := by
  rcases maestro with _ | _
  · exact ⟨[servo, sep, channel, sep, value.toNat],
      by simp [handle_servo, hch, h0, h255]⟩
  · exact ⟨[0xff, channel, (min value 255).toNat],
      by simp [handle_servo, hch, le_min h0 (by norm_num : (0:ℤ) ≤ 255)]⟩

lemma handle_servo_send_some (s : MRState) {channel : ℕ} {value : ℤ}
    (hch : channel ≤ 255) (h0 : 0 ≤ value) (h255 : value ≤ 255) :
    ∃ fr, handle_servo_send s channel value = some (send_command s fr) := by
  obtain ⟨fr, hfr⟩ := handle_servo_some s.maestro hch h0 h255
  exact ⟨fr, by simp [handle_servo_send, hfr]⟩

lemma set_digital_pin_some (maestro : Bool) (value : ℤ) {pinNo : ℕ}
    (hch : pinNo ≤ 255) :
    ∃ fr, set_digital_pin maestro pinNo value = some fr := by
  rcases maestro with _ | _
  · exact ⟨[pin_code, sep, pinNo, sep, (if (127:ℤ) ≤ value then (255:ℤ) else 0).toNat],
      by simp [set_digital_pin, hch]⟩
  · unfold set_digital_pin
    simp only [Bool.true_eq_false, if_false]
    by_cases hv : (127 : ℤ) ≤ value <;>
      simp only [hv, if_pos, if_neg, not_false_iff, ite_true, ite_false] <;>
      exact handle_servo_some _ hch (by norm_num) (by norm_num)

lemma set_digital_pin_send_some (s : MRState) (value : ℤ) {pinNo : ℕ}
    (hch : pinNo ≤ 255) :
    ∃ fr, set_digital_pin_send s pinNo value = some (send_command s fr) := by
  obtain ⟨fr, hfr⟩ := set_digital_pin_some s.maestro value hch
  exact ⟨fr, by simp [set_digital_pin_send, hfr]⟩

lemma handle_servo_maestro {channel : ℕ} {value : ℤ}
    (hch : channel ≤ 255) (h0 : 0 ≤ value) :
    handle_servo true channel value = some [0xff, channel, (min value 255).toNat] := by
  simp [handle_servo, hch, le_min h0 (by norm_num : (0:ℤ) ≤ 255)]

lemma handle_servo_delim {channel : ℕ} {value : ℤ}
    (hch : channel ≤ 255) (h0 : 0 ≤ value) (h255 : value ≤ 255) :
    handle_servo false channel value =
      some [servo, sep, channel, sep, value.toNat] := by
  simp [handle_servo, hch, h0, h255]

lemma set_digital_pin_delim {pinNo : ℕ} (value : ℤ) (hch : pinNo ≤ 255) :
    set_digital_pin false pinNo value =
      some [pin_code, sep, pinNo, sep, (if (127:ℤ) ≤ value then (255:ℤ) else 0).toNat] := by
  simp [set_digital_pin, hch]

/-- In delimited mode, a 5-byte payload (6 bytes with terminator) never
passes the length check. -/
lemma send_command_len5 {s : MRState} (hsm : s.maestro = false) {f : Frame}
    (hf : f.length = 5) : send_command s f = [] := by
  simp [send_command, hsm, hf]

/-- Every frame `_handle_servo` actually writes carries the requested
channel in its second byte (in delimited mode nothing is written at
all, since the servo payload is 5 bytes). -/
lemma handle_servo_send_frames (s : MRState) {channel : ℕ} {value : ℤ}
    (hch : channel ≤ 255) (h0 : 0 ≤ value) (h255 : value ≤ 255) :
    ∃ frames, handle_servo_send s channel value = some frames ∧
      ∀ f ∈ frames, ∃ w, f = [0xff, channel, w] := by
  cases hsm : s.maestro with
  | false =>
    refine ⟨[], ?_, by simp⟩
    rw [handle_servo_send, hsm, handle_servo_delim hch h0 h255,
      Option.map_some', send_command_len5 hsm
        (show ([servo, sep, channel, sep, value.toNat] : Frame).length = 5 from rfl)]
  | true =>
    have hsc : send_command s [0xff, channel, (min value 255).toNat] =
        if s.serial_open = false then []
        else [[0xff, channel, (min value 255).toNat]] := by
      simp [send_command, hsm]
    refine ⟨send_command s [0xff, channel, (min value 255).toNat], ?_, ?_⟩
    · rw [handle_servo_send, hsm, handle_servo_maestro hch h0, Option.map_some']
    · intro f hf
      rw [hsc] at hf
      split at hf
      · simp at hf
      · exact ⟨(min value 255).toNat, by simpa using hf⟩

/-- Every frame `_set_digital_pin` actually writes carries the requested
pin channel in its second byte (in delimited mode nothing is written:
the pin payload is 5 bytes). -/
lemma set_digital_pin_send_frames (s : MRState) (value : ℤ) {pinNo : ℕ}
    (hch : pinNo ≤ 255) :
    ∃ frames, set_digital_pin_send s pinNo value = some frames ∧
      ∀ f ∈ frames, ∃ w, f = [0xff, pinNo, w] := by
  cases hsm : s.maestro with
  | false =>
    refine ⟨[], ?_, by simp⟩
    rw [set_digital_pin_send, hsm, set_digital_pin_delim value hch,
      Option.map_some', send_command_len5 hsm
        (show ([pin_code, sep, pinNo, sep, (if (127:ℤ) ≤ value then (255:ℤ) else 0).toNat] : Frame).length = 5 from rfl)]
  | true =>
    have hmode : (0:ℤ) ≤ if (127:ℤ) ≤ value then (255:ℤ) else 0 := by
      split <;> norm_num
    have hsc : send_command s
          [0xff, pinNo, (min (if (127:ℤ) ≤ value then (255:ℤ) else 0) 255).toNat] =
        if s.serial_open = false then []
        else [[0xff, pinNo, (min (if (127:ℤ) ≤ value then (255:ℤ) else 0) 255).toNat]] := by
      simp [send_command, hsm]
    refine ⟨send_command s
        [0xff, pinNo, (min (if (127:ℤ) ≤ value then (255:ℤ) else 0) 255).toNat], ?_, ?_⟩
    · rw [set_digital_pin_send, hsm, set_digital_pin, if_neg (by simp),
        handle_servo_maestro hch hmode, Option.map_some']
    · intro f hf
      rw [hsc] at hf
      split at hf
      · simp at hf
      · exact ⟨(min (if (127:ℤ) ≤ value then (255:ℤ) else 0) 255).toNat,
          by simpa using hf⟩

/-- The axes loop always terminates without an uncaught exception, never
touches `maestro` or `_serial_open`, and writes no frame while the port
is closed (the `_values` map, by contrast, may well change). -/
lemma process_axes_spec (cd : ControlData) :
    ∀ (l : List (ℕ × AxisBinding)) (s : MRState),
    ∃ b s' out, process_axes cd s l = some (b, s', out) ∧
      s'.maestro = s.maestro ∧ s'.serial_open = s.serial_open ∧
      (s.serial_open = false → out = []) := by
  intro l
  induction l with
  | nil => intro s; exact ⟨false, s, [], rfl, rfl, rfl, fun _ => rfl⟩
  | cons hd rest ih =>
    intro s
    obtain ⟨key, item⟩ := hd
    by_cases hg : cd.axes key < -1 ∨ cd.axes key > 1
    · exact ⟨true, s, [], by simp [process_axes, hg], rfl, rfl, fun _ => rfl⟩
    · push_neg at hg
      have h0 : 0 ≤ normalize_axis item.inverted (cd.axes key) :=
        normalize_axis_nonneg item.inverted hg.1 hg.2
      have h255 := normalize_axis_le_255 item.inverted (cd.axes key)
      by_cases hv : s.values (targets item.name) =
          normalize_axis item.inverted (cd.axes key)
      · obtain ⟨b, s', out, hrec, hm, ho, hempty⟩ := ih s
        exact ⟨b, s', out, by simp [process_axes, hg.1.not_lt, hg.2.not_lt, hv, hrec],
          hm, ho, hempty⟩
      · obtain ⟨fr, hfr⟩ := handle_servo_send_some
          s (targets_le_255 item.name) h0 h255
        obtain ⟨b, s', out, hrec, hm, ho, hempty⟩ :=
          ih { s with values := Function.update s.values (targets item.name) (normalize_axis item.inverted (cd.axes key)) }
        refine ⟨b, s', send_command s fr ++ out, ?_, hm, ho, ?_⟩
        · simp [process_axes, hg.1.not_lt, hg.2.not_lt, hv, hfr, hrec]
        · intro hclosed
          rw [send_command_closed hclosed, hempty hclosed]
          rfl

/-- The buttons loop: same totality and frame facts as the axes loop. -/
lemma process_buttons_spec (cd : ControlData) :
    ∀ (l : List (ℕ × Target)) (s : MRState),
    ∃ s' out, process_buttons cd s l = some (s', out) ∧
      s'.maestro = s.maestro ∧ s'.serial_open = s.serial_open ∧
      (s.serial_open = false → out = []) := by
  intro l
  induction l with
  | nil => intro s; exact ⟨s, [], rfl, rfl, rfl, fun _ => rfl⟩
  | cons hd rest ih =>
    intro s
    obtain ⟨key, name⟩ := hd
    by_cases hv : s.values (targets name) = cd.buttons key
    · obtain ⟨s', out, hrec, hm, ho, hempty⟩ := ih s
      exact ⟨s', out, by simp [process_buttons, hv, hrec], hm, ho, hempty⟩
    · obtain ⟨fr, hfr⟩ := set_digital_pin_send_some
        s (cd.buttons key) (targets_le_255 name)
      obtain ⟨s', out, hrec, hm, ho, hempty⟩ :=
        ih { s with values := Function.update s.values (targets name) (cd.buttons key) }
      refine ⟨s', send_command s fr ++ out, ?_, hm, ho, ?_⟩
      · simp [process_buttons, hv, hfr, hrec]
      · intro hclosed
        rw [send_command_closed hclosed, hempty hclosed]
        rfl

/-- `on_control_update` always returns, never flips `maestro` or
`_serial_open`, and writes nothing while the port is closed. -/
lemma on_control_update_spec (cd : ControlData) (s : MRState) :
    ∃ s' out, on_control_update cd s = some (s', out) ∧
      s'.maestro = s.maestro ∧ s'.serial_open = s.serial_open ∧
      (s.serial_open = false → out = []) := by
  obtain ⟨b, s1, out1, hax, hm1, ho1, he1⟩ := process_axes_spec cd axes_mapping s
  rcases b with _ | _
  · obtain ⟨s2, out2, hbt, hm2, ho2, he2⟩ := process_buttons_spec cd buttons_mapping s1
    refine ⟨s2, out1 ++ out2, by simp [on_control_update, hax, hbt],
      hm2.trans hm1, ho2.trans ho1, ?_⟩
    intro hclosed
    rw [he1 hclosed, he2 (ho1.trans hclosed)]
    rfl
  · exact ⟨s1, out1, by simp [on_control_update, hax], hm1, ho1, he1⟩


/-- In maestro mode, `opened` marks the port open and writes exactly the
three neutralization frames, in order. -/
lemma opened_maestro {s : MRState} (hm : s.maestro = true) :
    opened s = some ({ s with serial_open := true }, startup_frames) := by
  norm_num [opened, hm, handle_servo_send, handle_servo, set_digital_pin_send,
    set_digital_pin, send_command, machine_channel, rudder_channel,
    pump_channel, startup_frames] <;> simp

/-- A run from a maestro-mode state never raises and stays in maestro
mode. -/
lemma run_spec : ∀ (events : List MREvent) (s : MRState), s.maestro = true →
    ∃ s' out, run s events = some (s', out) ∧ s'.maestro = true := by
  intro events
  induction events with
  | nil => intro s hm; exact ⟨s, [], rfl, hm⟩
  | cons e rest ih =>
    intro s hm
    rcases e with _ | cd
    · obtain ⟨s', out, hrun, hm'⟩ := ih { s with serial_open := true } hm
      exact ⟨s', startup_frames ++ out,
        by simp [run, step, opened_maestro hm, hrun], hm'⟩
    · obtain ⟨s1, out1, hocu, hm1, ho1, _⟩ := on_control_update_spec cd s
      obtain ⟨s', out, hrun, hm'⟩ := ih s1 (hm1.trans hm)
      exact ⟨s', out1 ++ out, by simp [run, step, hocu, hrun], hm'⟩

/-- While the port is closed, a run containing no `opened` event writes
no frame at all and leaves the port closed (its `_values` map may still
change). -/
lemma run_closed : ∀ (events : List MREvent) (s : MRState),
    s.serial_open = false → MREvent.opened ∉ events →
    ∃ s', run s events = some (s', []) ∧ s'.maestro = s.maestro ∧
      s'.serial_open = false := by
  intro events
  induction events with
  | nil => intro s hc _; exact ⟨s, rfl, rfl, hc⟩
  | cons e rest ih =>
    intro s hc hmem
    rcases e with _ | cd
    · exact absurd (List.mem_cons_self _ _) hmem
    · obtain ⟨s1, out1, hocu, hm1, ho1, he1⟩ := on_control_update_spec cd s
      obtain ⟨s', hrun, hm', ho'⟩ :=
        ih s1 (ho1.trans hc) (fun h => hmem (List.mem_cons_of_mem _ h))
      exact ⟨s', by simp [run, step, hocu, he1 hc, hrun], hm'.trans hm1, ho'⟩

/-- Output of a concatenated trace is the concatenation of outputs. -/
lemma run_append : ∀ (l1 l2 : List MREvent) (s : MRState),
    run s (l1 ++ l2) = match run s l1 with
      | none => none
      | some (s1, o1) => match run s1 l2 with
        | none => none
        | some (s2, o2) => some (s2, o1 ++ o2) := by
  intro l1
  induction l1 with
  | nil =>
    intro l2 s
    simp only [List.nil_append, run]
    cases hrun : run s l2 with
    | none => rfl
    | some q => obtain ⟨s2, o2⟩ := q; simp
  | cons e rest ih =>
    intro l2 s
    simp only [List.cons_append, run, List.append_eq]
    cases hstep : step s e with
    | none => rfl
    | some p =>
      obtain ⟨s1, o1⟩ := p
      dsimp only
      rw [ih]
      cases hrun : run s1 rest with
      | none => rfl
      | some q =>
        obtain ⟨s2, o2⟩ := q
        dsimp only
        cases hrun2 : run s2 l2 with
        | none => simp [hrun2]
        | some r =>
          obtain ⟨s3, o3⟩ := r
          simp [hrun2, List.append_assoc]


/-- Evaluating the axes loop on the configured mapping, for in-range
raw values: it never aborts; afterwards the stored values of the
machine channel (1) and the rudder channel (0) are exactly the
normalized axis values, the pump channel (2) being untouched; and a
frame addressed to a channel appears in the output only if that
channel's computed value differed from its stored value (the loop never
writes to channel 2 at all). -/
lemma process_axes_eval (cd : ControlData) (s : MRState)
    (h1 : -1 ≤ cd.axes 1) (h2 : cd.axes 1 ≤ 1)
    (h3 : -1 ≤ cd.axes 2) (h4 : cd.axes 2 ≤ 1) :
    ∃ sAx out, process_axes cd s axes_mapping = some (false, sAx, out) ∧
      sAx.values 1 = normalize_axis true (cd.axes 1) ∧
      sAx.values 0 = normalize_axis false (cd.axes 2) ∧
      sAx.values 2 = s.values 2 ∧
      sAx.maestro = s.maestro ∧ sAx.serial_open = s.serial_open ∧
      (s.values 1 = normalize_axis true (cd.axes 1) →
        ∀ w, [0xff, 1, w] ∉ out) ∧
      (s.values 0 = normalize_axis false (cd.axes 2) →
        ∀ w, [0xff, 0, w] ∉ out) ∧
      (∀ w, [0xff, 2, w] ∉ out) := by
  have hg1 : ¬ (cd.axes 1 < -1) := not_lt.mpr h1
  have hg2 : ¬ ((1 : ℚ) < cd.axes 1) := not_lt.mpr h2
  have hg3 : ¬ (cd.axes 2 < -1) := not_lt.mpr h3
  have hg4 : ¬ ((1 : ℚ) < cd.axes 2) := not_lt.mpr h4
  have hn1 : 0 ≤ normalize_axis true (cd.axes 1) :=
    normalize_axis_nonneg true h1 h2
  have hn2 : 0 ≤ normalize_axis false (cd.axes 2) :=
    normalize_axis_nonneg false h3 h4
  by_cases hv1 : s.values 1 = normalize_axis true (cd.axes 1)
  · by_cases hv2 : s.values 0 = normalize_axis false (cd.axes 2)
    · exact ⟨s, [], by simp [process_axes, axes_mapping, targets, hg1, hg2,
        hg3, hg4, hv1, hv2], hv1, hv2, rfl, rfl, rfl,
        fun _ w => List.not_mem_nil _, fun _ w => List.not_mem_nil _,
        fun w => List.not_mem_nil _⟩
    · obtain ⟨frames2, hfr2, hmem2⟩ := handle_servo_send_frames s
        (show (0 : ℕ) ≤ 255 by norm_num) hn2 (normalize_axis_le_255 false (cd.axes 2))
      refine ⟨{ s with values := Function.update s.values 0 (normalize_axis false (cd.axes 2)) },
        frames2 ++ [], ?_, ?_, ?_, ?_, rfl, rfl, ?_, ?_, ?_⟩
      · simp [process_axes, axes_mapping, targets, hg1, hg2, hg3, hg4, hv1,
          hv2, hfr2]
      · simp [Function.update_apply, hv1]
      · simp [Function.update_apply]
      · simp [Function.update_apply]
      · intro _ w hw
        obtain ⟨w2, hw2⟩ := hmem2 _ (by simpa using hw)
        simp at hw2
      · intro he
        exact absurd he hv2
      · intro w hw
        obtain ⟨w2, hw2⟩ := hmem2 _ (by simpa using hw)
        simp at hw2
  · obtain ⟨frames1, hfr1, hmem1⟩ := handle_servo_send_frames s
      (show (1 : ℕ) ≤ 255 by norm_num) hn1 (normalize_axis_le_255 true (cd.axes 1))
    by_cases hv2 : s.values 0 = normalize_axis false (cd.axes 2)
    · refine ⟨{ s with values := Function.update s.values 1 (normalize_axis true (cd.axes 1)) },
        frames1 ++ [], ?_, ?_, ?_, ?_, rfl, rfl, ?_, ?_, ?_⟩
      · simp [process_axes, axes_mapping, targets, hg1, hg2, hg3, hg4, hv1,
          hv2, hfr1, Function.update_apply]
      · simp [Function.update_apply]
      · simp [Function.update_apply, hv2]
      · simp [Function.update_apply]
      · intro he
        exact absurd he hv1
      · intro _ w hw
        obtain ⟨w1, hw1⟩ := hmem1 _ (by simpa using hw)
        simp at hw1
      · intro w hw
        obtain ⟨w1, hw1⟩ := hmem1 _ (by simpa using hw)
        simp at hw1
    · obtain ⟨frames2, hfr2, hmem2⟩ := handle_servo_send_frames
        { s with values := Function.update s.values 1 (normalize_axis true (cd.axes 1)) }
        (show (0 : ℕ) ≤ 255 by norm_num) hn2 (normalize_axis_le_255 false (cd.axes 2))
      refine ⟨{ s with values := Function.update (Function.update s.values 1 (normalize_axis true (cd.axes 1))) 0 (normalize_axis false (cd.axes 2)) }, frames1 ++ (frames2 ++ []), ?_, ?_, ?_, ?_, rfl, rfl, ?_, ?_, ?_⟩
      · simp [process_axes, axes_mapping, targets, hg1, hg2, hg3, hg4, hv1,
          hv2, hfr1, hfr2, Function.update_apply]
      · simp [Function.update_apply]
      · simp [Function.update_apply]
      · simp [Function.update_apply]
      · intro he
        exact absurd he hv1
      · intro he
        exact absurd he hv2
      · intro w hw
        rcases List.mem_append.mp hw with hw | hw
        · obtain ⟨w1, hw1⟩ := hmem1 _ hw
          simp at hw1
        · obtain ⟨w2, hw2⟩ := hmem2 _ (by simpa using hw)
          simp at hw2

/-- Evaluating the buttons loop on the configured mapping: afterwards
the stored value of the pump channel (2) is the raw button value,
channels 0 and 1 are untouched, a pump frame appears only if the button
value differed from the stored one, and the loop never writes to
channels 0 or 1. -/
lemma process_buttons_eval (cd : ControlData) (s : MRState) :
    ∃ sB out, process_buttons cd s buttons_mapping = some (sB, out) ∧
      sB.values 2 = cd.buttons 3 ∧
      sB.values 1 = s.values 1 ∧ sB.values 0 = s.values 0 ∧
      sB.maestro = s.maestro ∧ sB.serial_open = s.serial_open ∧
      (s.values 2 = cd.buttons 3 → ∀ w, [0xff, 2, w] ∉ out) ∧
      (∀ w, [0xff, 1, w] ∉ out) ∧
      (∀ w, [0xff, 0, w] ∉ out) := by
  by_cases hv : s.values 2 = cd.buttons 3
  · exact ⟨s, [], by simp [process_buttons, buttons_mapping, targets, hv],
      hv, rfl, rfl, rfl, rfl, fun _ w => List.not_mem_nil _,
      fun w => List.not_mem_nil _, fun w => List.not_mem_nil _⟩
  · obtain ⟨frames, hfr, hmem⟩ := set_digital_pin_send_frames s (cd.buttons 3)
      (show (2 : ℕ) ≤ 255 by norm_num)
    refine ⟨{ s with values := Function.update s.values 2 (cd.buttons 3) },
      frames ++ [], ?_, ?_, ?_, ?_, rfl, rfl, ?_, ?_, ?_⟩
    · simp [process_buttons, buttons_mapping, targets, hv, hfr]
    · simp [Function.update_apply]
    · simp [Function.update_apply]
    · simp [Function.update_apply]
    · intro he
      exact absurd he hv
    · intro w hw
      obtain ⟨w2, hw2⟩ := hmem _ (by simpa using hw)
      simp at hw2
    · intro w hw
      obtain ⟨w2, hw2⟩ := hmem _ (by simpa using hw)
      simp at hw2

/-- After a completed control update with in-range axis values, the
stored per-channel values are exactly the values computed from the
update. -/
lemma on_control_update_values {cd : ControlData} {s s1 : MRState}
    {out : List Frame}
    (h1 : -1 ≤ cd.axes 1) (h2 : cd.axes 1 ≤ 1)
    (h3 : -1 ≤ cd.axes 2) (h4 : cd.axes 2 ≤ 1)
    (h : on_control_update cd s = some (s1, out)) :
    s1.values 1 = normalize_axis true (cd.axes 1) ∧
    s1.values 0 = normalize_axis false (cd.axes 2) ∧
    s1.values 2 = cd.buttons 3 := by
  obtain ⟨sAx, outA, hax, ha1, ha0, ha2, _, _, _, _, _⟩ :=
    process_axes_eval cd s h1 h2 h3 h4
  obtain ⟨sB, outB, hbt, hb2, hb1, hb0, _, _, _, _, _⟩ :=
    process_buttons_eval cd sAx
  have : on_control_update cd s = some (sB, outA ++ outB) := by
    simp [on_control_update, hax, hbt]
  rw [this] at h
  obtain ⟨rfl, rfl⟩ : sB = s1 ∧ outA ++ outB = out := by
    simpa using h
  exact ⟨hb1.trans ha1, hb0.trans ha0, hb2⟩

/-- One completed control update, per channel: afterwards each stored
value equals its computed value, and a frame addressed to a channel was
written only if that channel's computed value differed from its stored
value when the update arrived. -/
lemma on_control_update_frames {cd : ControlData} {s s1 : MRState}
    {out : List Frame}
    (h1 : -1 ≤ cd.axes 1) (h2 : cd.axes 1 ≤ 1)
    (h3 : -1 ≤ cd.axes 2) (h4 : cd.axes 2 ≤ 1)
    (h : on_control_update cd s = some (s1, out)) :
    (s1.values 1 = normalize_axis true (cd.axes 1) ∧
     s1.values 0 = normalize_axis false (cd.axes 2) ∧
     s1.values 2 = cd.buttons 3) ∧
    (s.values 1 = normalize_axis true (cd.axes 1) →
      ∀ w, [0xff, 1, w] ∉ out) ∧
    (s.values 0 = normalize_axis false (cd.axes 2) →
      ∀ w, [0xff, 0, w] ∉ out) ∧
    (s.values 2 = cd.buttons 3 → ∀ w, [0xff, 2, w] ∉ out) := by
  obtain ⟨sAx, outA, hax, ha1, ha0, ha2, _, _, hA1, hA0, hA2⟩ :=
    process_axes_eval cd s h1 h2 h3 h4
  obtain ⟨sB, outB, hbt, hb2, hb1, hb0, _, _, hB2, hB1, hB0⟩ :=
    process_buttons_eval cd sAx
  have heq : on_control_update cd s = some (sB, outA ++ outB) := by
    simp [on_control_update, hax, hbt]
  rw [heq] at h
  obtain ⟨rfl, rfl⟩ : sB = s1 ∧ outA ++ outB = out := by
    simpa using h
  refine ⟨⟨hb1.trans ha1, hb0.trans ha0, hb2⟩, ?_, ?_, ?_⟩
  · intro he w hw
    rcases List.mem_append.mp hw with hw | hw
    · exact hA1 he w hw
    · exact hB1 w hw
  · intro he w hw
    rcases List.mem_append.mp hw with hw | hw
    · exact hA0 he w hw
    · exact hB0 w hw
  · intro he w hw
    rcases List.mem_append.mp hw with hw | hw
    · exact hA2 w hw
    · exact hB2 (ha2.trans he) w hw

/-- A control update whose computed values all coincide with the stored
ones writes nothing and leaves the state exactly as it was. -/
lemma on_control_update_skip {cd : ControlData} {s : MRState}
    (h1 : -1 ≤ cd.axes 1) (h2 : cd.axes 1 ≤ 1)
    (h3 : -1 ≤ cd.axes 2) (h4 : cd.axes 2 ≤ 1)
    (e1 : s.values 1 = normalize_axis true (cd.axes 1))
    (e2 : s.values 0 = normalize_axis false (cd.axes 2))
    (e3 : s.values 2 = cd.buttons 3) :
    on_control_update cd s = some (s, []) := by
  simp [on_control_update, process_axes, process_buttons, axes_mapping,
    buttons_mapping, targets, not_lt.mpr h1, not_lt.mpr h2, not_lt.mpr h3,
    not_lt.mpr h4, e1, e2, e3]

end Machineroom


/-! ## The claims -/

open Machineroom RemoteControlManager

/-- C1 counterexample: with the session claimed by client `"a"`, a
repeated `control_request` from `"a"` itself is answered with
`data = false` — denied, not granted as the claim states
(`if not self.remote_controller` is false for any non-empty holder, so
the handler takes the denial branch even for the holder itself). -/
theorem c1_counterexample :
    (control_request "a" (some "a")).2.data = false := by decide

/-- C1 (amended): for every holder `A` with a non-empty uuid, a repeated
`control_request` from `A` itself is answered with `data = false`
(denied) and the state remains `Claimed(A)`.  The state-preservation
half of the original claim holds; the reply is denial, not grant. -/
theorem c1_rerequest_denied (A : String) (hA : A ≠ "") :
    control_request A (some A) =
      (some A, { action := "control_request", data := false }) := by
  simp [control_request, falsy, hA]

/-- C1 witness at the concrete holder `"a"`. -/
theorem c1_witness :
    control_request "a" (some "a") =
      (some "a", { action := "control_request", data := false }) :=
  c1_rerequest_denied "a" (by decide)

/-- C5 counterexample: with `A = ""` and `B = "b"` (distinct clients),
`request(A)` then `request(B)` answers **granted** to B as well, because
the empty string stored as holder is falsy for
`if not self.remote_controller`; the claim promises B is denied. -/
theorem c5_counterexample :
    (control_request "b" ((control_request "" none).1)).2.data = true := by
  decide

/-- C5 (amended): for clients `A ≠ B` where `A` has a non-empty uuid,
starting `Unclaimed`: `request(A)` grants and claims `A`; `request(B)`
is denied leaving `Claimed(A)`; `release(A)` acknowledges and returns to
`Unclaimed`; and `data(B, payload)` while `Unclaimed` is dropped (not
forwarded to the machineroom) with the state unchanged. -/
theorem c5_session_scenario (A B : String) (payload : ControlData)
    (hAB : A ≠ B) (hA : A ≠ "") :
    control_request A none =
      (some A, { action := "control_request", data := true }) ∧
    control_request B (some A) =
      (some A, { action := "control_request", data := false }) ∧
    control_release A (some A) =
      (none, some { action := "control_release", data := true }) ∧
    RemoteControlManager.data B payload none = (none, none) := by
  refine ⟨?_, ?_, ?_, ?_⟩
  · simp [control_request, falsy]
  · simp [control_request, falsy, hA]
  · simp [control_release]
  · simp [RemoteControlManager.data]

/-- C5 witness at the concrete clients `"a"` and `"b"`. -/
theorem c5_witness :
    control_request "a" none =
      (some "a", { action := "control_request", data := true }) ∧
    control_request "b" (some "a") =
      (some "a", { action := "control_request", data := false }) ∧
    control_release "a" (some "a") =
      (none, some { action := "control_release", data := true }) ∧
    RemoteControlManager.data "b" zero_update none = (none, none) :=
  c5_session_scenario "a" "b" zero_update (by decide) (by decide)

/-- C2 counterexample: with the port closed (`initialState`), the all-zero
control update writes nothing (`p.2 = []`, the no-op half of the claim
holds), but the Control State entry for the machine channel changes from
0 to 128 — the map is *not* left unchanged as the claim states, because
`on_control_update` stores `new_value` even though `_send_command`
returned without transmitting. -/
theorem c2_counterexample :
    (on_control_update zero_update initialState).map
        (fun p => (p.1.values 1, p.2)) = some ((128 : ℤ), ([] : List Frame)) ∧
    initialState.values 1 = 0 := by
  constructor
  · norm_num [on_control_update, process_axes, process_buttons, axes_mapping,
      buttons_mapping, normalize_axis, intTrunc, handle_servo_send,
      handle_servo, send_command, set_digital_pin_send, set_digital_pin,
      targets, initialState, zero_update, Function.update] <;> simp
  · rfl

/-- C2 (amended): while the serial link is not open, every send of a
control update is a no-op — no frame is written — and the link stays
closed; the Control State map, however, is still updated with the newly
computed values. -/
theorem c2_no_sends_when_closed (cd : ControlData) (s : MRState)
    (h : s.serial_open = false) :
    ∃ s', on_control_update cd s = some (s', []) ∧ s'.serial_open = false := by
  obtain ⟨s', out, hocu, _, ho, he⟩ := on_control_update_spec cd s
  exact ⟨s', by rw [hocu, he h], ho.trans h⟩

/-- C2 witness at the all-zero update from the initial (closed) state. -/
theorem c2_witness :
    ∃ s', on_control_update zero_update initialState = some (s', []) ∧
      s'.serial_open = false :=
  c2_no_sends_when_closed zero_update initialState rfl


/-- C3 counterexample: the update whose axis 2 (rudder) is out of range
at 2 while axis 1 (machine) is in range still emits the machine frame
`[0xff, 1, 128]` before the abort — the discard is *not* atomic, so the
claim's "no command frame is emitted for any axis, regardless of which
axis is the out-of-range one" is false. -/
theorem c3_counterexample :
    (on_control_update bad_axis2_update openState).map (fun p => p.2) =
      some [[0xff, 1, 128]] := by
  norm_num [on_control_update, process_axes, process_buttons, axes_mapping,
    buttons_mapping, normalize_axis, intTrunc, handle_servo_send,
    handle_servo, send_command, set_digital_pin_send, set_digital_pin,
    targets, openState, bad_axis2_update, Function.update] <;> simp

/-- C3 (amended): processing aborts at the *first* out-of-range axis in
iteration order.  If axis 1 is out of range, the whole update is
discarded (no frame, state unchanged); if axis 1 is in range and axis 2
is out of range, the result is exactly the processing of axis 1 alone —
axes from the offending one on, and all buttons, are discarded, but the
frames and state changes of earlier axes have already happened. -/
theorem c3_abort_at_first_bad_axis (cd : ControlData) (s : MRState) :
    ((cd.axes 1 < -1 ∨ cd.axes 1 > 1) →
      on_control_update cd s = some (s, [])) ∧
    ((-1 ≤ cd.axes 1 ∧ cd.axes 1 ≤ 1) → (cd.axes 2 < -1 ∨ cd.axes 2 > 1) →
      ∃ s1 out1,
        process_axes cd s [(1, ⟨Target.machine, true⟩)] =
          some (false, s1, out1) ∧
        on_control_update cd s = some (s1, out1)) := by
  constructor
  · intro hbad
    simp [on_control_update, process_axes, axes_mapping, hbad]
  · rintro ⟨ha, hb⟩ hbad
    have hg1 : ¬ (cd.axes 1 < -1) := not_lt.mpr ha
    have hg2 : ¬ ((1 : ℚ) < cd.axes 1) := not_lt.mpr hb
    by_cases hv1 : s.values 1 = normalize_axis true (cd.axes 1)
    · refine ⟨s, [], ?_, ?_⟩
      · simp [process_axes, targets, hg1, hg2, hv1]
      · simp [on_control_update, process_axes, axes_mapping, targets, hg1,
          hg2, hv1, hbad]
    · obtain ⟨fr1, hfr1⟩ := handle_servo_send_some s
        (show (1 : ℕ) ≤ 255 by norm_num) (normalize_axis_nonneg true ha hb)
        (normalize_axis_le_255 true (cd.axes 1))
      refine ⟨{ s with values := Function.update s.values 1 (normalize_axis true (cd.axes 1)) }, send_command s fr1 ++ [], ?_, ?_⟩
      · simp [process_axes, targets, hg1, hg2, hv1, hfr1]
      · simp [on_control_update, process_axes, axes_mapping, targets, hg1,
          hg2, hv1, hfr1, hbad]

/-- C3 witness: both abort positions exercised on concrete updates. -/
theorem c3_witness :
    on_control_update bad_axis1_update openState = some (openState, []) ∧
    ∃ s1 out1,
      process_axes bad_axis2_update openState [(1, ⟨Target.machine, true⟩)] =
        some (false, s1, out1) ∧
      on_control_update bad_axis2_update openState = some (s1, out1) :=
  ⟨(c3_abort_at_first_bad_axis bad_axis1_update openState).1
      (by norm_num [bad_axis1_update]),
   (c3_abort_at_first_bad_axis bad_axis2_update openState).2
      (by norm_num [bad_axis2_update]) (by norm_num [bad_axis2_update])⟩

/-- C4 counterexample: at `raw = 3/256` (an exactly representable float)
the code computes `128 + int(1.5) = 129`, while the claimed formula
`clamp(128 + round(raw*128), 0, 255)` gives 130 — Python's `int()`
truncates toward zero, it does not round to nearest. -/
theorem c4_counterexample :
    normalize_axis false (3/256) ≠ normalize_axis_spec false (3/256) := by
  have h1 : normalize_axis false (3/256) = 129 := by
    norm_num [normalize_axis, intTrunc, min_def]
  have h2 : normalize_axis_spec false (3/256) = 130 := by
    norm_num [normalize_axis_spec, clamp, round_eq, min_def, max_def]
  rw [h1, h2]
  decide

/-- C4 (amended): for `raw ∈ [-1, 1]` the code's mapping equals
`clamp(128 ± trunc(raw * 128), 0, 255)` with truncation toward zero —
i.e. the spec formula is correct once `round` is replaced by truncating
`int`; the lower clamp is vacuous on this range (the code indeed only
applies `min(·, 255)`). -/
theorem c4_trunc_formula (inverted : Bool) (raw : ℚ)
    (h1 : -1 ≤ raw) (h2 : raw ≤ 1) :
    normalize_axis inverted raw = normalize_axis_clamped inverted raw := by
  have ht1 : intTrunc (raw * 128) ≤ 128 := intTrunc_le_128 (raw_mul_le h2)
  have ht2 : -128 ≤ intTrunc (raw * 128) := neg_128_le_intTrunc (neg_le_raw_mul h1)
  unfold normalize_axis normalize_axis_clamped clamp
  rcases inverted with _ | _ <;>
    simp only [Bool.false_eq_true, if_false, if_true] <;>
    rw [max_eq_left (by omega)]

/-- C4 witness at `raw = 1/2`, non-inverted. -/
theorem c4_witness :
    normalize_axis false (1/2) = normalize_axis_clamped false (1/2) :=
  c4_trunc_formula false (1/2) (by norm_num) (by norm_num)


/-- C6: send-on-change, per channel.  After a completed control update
(in-range axes), the stored value of every channel equals its computed
value — the stored value is updated afterwards; a frame for a channel
is produced only when its computed value differs from the stored
last-sent value; and consequently, when a second consecutive update
computes the same normalized (channel, value) pair for a channel, the
second update emits no command frame for that channel — independently
for machine (channel 1), rudder (channel 0) and pump (channel 2), so a
mixed update suppresses exactly its unchanged channels. -/
theorem c6_send_on_change (cd cd2 : ControlData) (s s1 s2 : MRState)
    (out out2 : List Frame)
    (ha1 : -1 ≤ cd.axes 1) (ha2 : cd.axes 1 ≤ 1)
    (ha3 : -1 ≤ cd.axes 2) (ha4 : cd.axes 2 ≤ 1)
    (hb1 : -1 ≤ cd2.axes 1) (hb2 : cd2.axes 1 ≤ 1)
    (hb3 : -1 ≤ cd2.axes 2) (hb4 : cd2.axes 2 ≤ 1)
    (h : on_control_update cd s = some (s1, out))
    (h2 : on_control_update cd2 s1 = some (s2, out2)) :
    (s1.values 1 = normalize_axis true (cd.axes 1) ∧
     s1.values 0 = normalize_axis false (cd.axes 2) ∧
     s1.values 2 = cd.buttons 3) ∧
    (s.values 1 = normalize_axis true (cd.axes 1) →
      ∀ w, [0xff, 1, w] ∉ out) ∧
    (s.values 0 = normalize_axis false (cd.axes 2) →
      ∀ w, [0xff, 0, w] ∉ out) ∧
    (s.values 2 = cd.buttons 3 → ∀ w, [0xff, 2, w] ∉ out) ∧
    (normalize_axis true (cd2.axes 1) = normalize_axis true (cd.axes 1) →
      ∀ w, [0xff, 1, w] ∉ out2) ∧
    (normalize_axis false (cd2.axes 2) = normalize_axis false (cd.axes 2) →
      ∀ w, [0xff, 0, w] ∉ out2) ∧
    (cd2.buttons 3 = cd.buttons 3 → ∀ w, [0xff, 2, w] ∉ out2) := by
  obtain ⟨hvals, hc1, hc0, hc2⟩ := on_control_update_frames ha1 ha2 ha3 ha4 h
  obtain ⟨_, hd1, hd0, hd2⟩ := on_control_update_frames hb1 hb2 hb3 hb4 h2
  refine ⟨hvals, hc1, hc0, hc2, ?_, ?_, ?_⟩
  · intro he
    exact hd1 (hvals.1.trans he.symm)
  · intro he
    exact hd0 (hvals.2.1.trans he.symm)
  · intro he
    exact hd2 (hvals.2.2.trans he.symm)

/-- C6 witness: the all-zero update run twice from a state already
holding its computed values; every per-channel clause is discharged at
these concrete runs. -/
theorem c6_witness :
    (steadyState.values 1 = normalize_axis true (zero_update.axes 1) ∧
     steadyState.values 0 = normalize_axis false (zero_update.axes 2) ∧
     steadyState.values 2 = zero_update.buttons 3) ∧
    (steadyState.values 1 = normalize_axis true (zero_update.axes 1) →
      ∀ w, [0xff, 1, w] ∉ ([] : List Frame)) ∧
    (steadyState.values 0 = normalize_axis false (zero_update.axes 2) →
      ∀ w, [0xff, 0, w] ∉ ([] : List Frame)) ∧
    (steadyState.values 2 = zero_update.buttons 3 →
      ∀ w, [0xff, 2, w] ∉ ([] : List Frame)) ∧
    (normalize_axis true (zero_update.axes 1) =
        normalize_axis true (zero_update.axes 1) →
      ∀ w, [0xff, 1, w] ∉ ([] : List Frame)) ∧
    (normalize_axis false (zero_update.axes 2) =
        normalize_axis false (zero_update.axes 2) →
      ∀ w, [0xff, 0, w] ∉ ([] : List Frame)) ∧
    (zero_update.buttons 3 = zero_update.buttons 3 →
      ∀ w, [0xff, 2, w] ∉ ([] : List Frame)) :=
  c6_send_on_change zero_update zero_update steadyState steadyState
    steadyState [] []
    (by norm_num [zero_update]) (by norm_num [zero_update])
    (by norm_num [zero_update]) (by norm_num [zero_update])
    (by norm_num [zero_update]) (by norm_num [zero_update])
    (by norm_num [zero_update]) (by norm_num [zero_update])
    (by norm_num [on_control_update, process_axes, process_buttons,
      axes_mapping, buttons_mapping, normalize_axis, intTrunc,
      handle_servo_send, handle_servo, send_command, set_digital_pin_send,
      set_digital_pin, targets, steadyState, zero_update, Function.update])
    (by norm_num [on_control_update, process_axes, process_buttons,
      axes_mapping, buttons_mapping, normalize_axis, intTrunc,
      handle_servo_send, handle_servo, send_command, set_digital_pin_send,
      set_digital_pin, targets, steadyState, zero_update, Function.update])

/-- C7: from the initial (closed-port) state, any trace whose prefix
contains no link-open event writes nothing until `opened` runs, and the
first frames ever written are exactly the three neutralization frames
machine = 0, rudder = 127, pump (servo write) = 0, in this order, before
any frames of the subsequent events — even if control updates arrived
before the link opened. -/
theorem c7_startup_before_client_data (pre post : List MREvent)
    (hpre : MREvent.opened ∉ pre) :
    ∃ s' out', run initialState (pre ++ MREvent.opened :: post) =
      some (s', startup_frames ++ out') := by
  obtain ⟨sp, hrunpre, hmp, hop⟩ := run_closed pre initialState rfl hpre
  have hm : sp.maestro = true := hmp
  obtain ⟨s2, out2, hrunpost, _⟩ := run_spec post { sp with serial_open := true } hm
  refine ⟨s2, out2, ?_⟩
  rw [run_append, hrunpre]
  have hmid : run sp (MREvent.opened :: post) =
      some (s2, startup_frames ++ out2) := by
    simp [run, step, opened_maestro hm, hrunpost]
  dsimp only
  rw [hmid]
  simp

/-- C7 witness: a control update queued before link-open contributes no
frames; the startup frames open the output. -/
theorem c7_witness :
    ∃ s' out', run initialState
        ([MREvent.control_update zero_update] ++
          MREvent.opened :: [MREvent.control_update zero_update]) =
      some (s', startup_frames ++ out') :=
  c7_startup_before_client_data [MREvent.control_update zero_update]
    [MREvent.control_update zero_update] (by simp)

/-- C8: compact servo encoding.  `(channel = 1, value = 300)` encodes to
exactly `[0xff, 1, 255]`; in general the compact frame is
`[0xff, channel, min(value, 255)]`, 3 bytes long, and with the port open
in maestro mode it passes the length check and is written unchanged. -/
theorem c8_compact_servo_frame (ch : ℕ) (v : ℤ) (s : MRState)
    (hch : ch ≤ 255) (hv : 0 ≤ v)
    (hm : s.maestro = true) (ho : s.serial_open = true) :
    handle_servo true 1 300 = some [0xff, 1, 255] ∧
    handle_servo true ch v = some [0xff, ch, (min v 255).toNat] ∧
    [0xff, ch, (min v 255).toNat].length = 3 ∧
    handle_servo_send s ch v = some [[0xff, ch, (min v 255).toNat]] := by
  have hmin : 0 ≤ min v 255 := le_min hv (by norm_num)
  refine ⟨by decide, ?_, rfl, ?_⟩
  · simp [handle_servo, hch, hmin]
  · simp [handle_servo_send, handle_servo, hch, hmin, hm, send_command, ho]

/-- C8 witness at channel 1, value 300, from the open maestro state. -/
theorem c8_witness :
    handle_servo true 1 300 = some [0xff, 1, 255] ∧
    handle_servo true 1 (300 : ℤ) = some [0xff, 1, (min (300 : ℤ) 255).toNat] ∧
    [0xff, 1, (min (300 : ℤ) 255).toNat].length = 3 ∧
    handle_servo_send openState 1 300 =
      some [[0xff, 1, (min (300 : ℤ) 255).toNat]] :=
  c8_compact_servo_frame 1 300 openState (by norm_num) (by norm_num) rfl rfl

/-- C9: for raw values in [-1, 1] both axis mappings land in [0, 255];
the non-inverted mapping is monotone non-decreasing in raw and the
inverted one monotone non-increasing. -/
theorem c9_monotone_bounded (r r1 r2 : ℚ)
    (h1 : -1 ≤ r) (h2 : r ≤ 1) (h3 : -1 ≤ r1) (h4 : r1 ≤ 1)
    (h5 : -1 ≤ r2) (h6 : r2 ≤ 1) (h7 : r1 ≤ r2) :
    (0 ≤ normalize_axis false r ∧ normalize_axis false r ≤ 255) ∧
    (0 ≤ normalize_axis true r ∧ normalize_axis true r ≤ 255) ∧
    normalize_axis false r1 ≤ normalize_axis false r2 ∧
    normalize_axis true r2 ≤ normalize_axis true r1 := by
  have hmono : intTrunc (r1 * 128) ≤ intTrunc (r2 * 128) :=
    intTrunc_mono (mul_le_mul_of_nonneg_right h7 (by norm_num))
  refine ⟨⟨normalize_axis_nonneg false h1 h2, normalize_axis_le_255 false r⟩,
    ⟨normalize_axis_nonneg true h1 h2, normalize_axis_le_255 true r⟩, ?_, ?_⟩
  · unfold normalize_axis
    simp only [Bool.false_eq_true, if_false]
    exact min_le_min (by omega) le_rfl
  · unfold normalize_axis
    simp only [eq_self_iff_true, if_true]
    exact min_le_min (by omega) le_rfl

/-- C9 witness at r = 0, r1 = 0, r2 = 1/2. -/
theorem c9_witness :
    (0 ≤ normalize_axis false 0 ∧ normalize_axis false 0 ≤ 255) ∧
    (0 ≤ normalize_axis true 0 ∧ normalize_axis true 0 ≤ 255) ∧
    normalize_axis false 0 ≤ normalize_axis false (1/2) ∧
    normalize_axis true (1/2) ≤ normalize_axis true 0 :=
  c9_monotone_bounded 0 0 (1/2) (by norm_num) (by norm_num) (by norm_num)
    (by norm_num) (by norm_num) (by norm_num) (by norm_num)

/-- C10: the length check in `_send_command` applies in both protocol
modes — any frame actually written is exactly 3 bytes, and in delimited
mode only 2-byte payloads survive the appended terminator.  Delimited
servo and pin payloads are 5 bytes (hence 6 with terminator), so their
sends are always dropped: the delimited protocol as implemented never
transmits a servo or pin command. -/
theorem c10_delimited_never_transmits (s s2 : MRState)
    (cmd cmd2 fr fr2 : Frame) (ch : ℕ) (v : ℤ) (frames : List Frame)
    (hm : s.maestro = false) :
    (fr2 ∈ send_command s2 cmd2 → fr2.length = 3) ∧
    (fr ∈ send_command s cmd → cmd.length = 2) ∧
    (handle_servo false ch v = some fr → fr.length = 5) ∧
    (handle_servo_send s ch v = some frames → frames = []) ∧
    (set_digital_pin false ch v = some fr → fr.length = 5) ∧
    (set_digital_pin_send s ch v = some frames → frames = []) := by
  have key : ∀ (st : MRState) (c f : Frame), f ∈ send_command st c →
      f.length = 3 ∧ (st.maestro = false → c.length = 2) := by
    intro st c f hmem
    simp only [send_command] at hmem
    split at hmem
    · simp at hmem
    · split at hmem
      · rename_i hso hma
        simp at hmem
        obtain ⟨hlen, rfl⟩ := hmem
        refine ⟨?_, fun _ => hlen⟩
        simp [hlen]
      · rename_i hso hma
        simp at hmem
        obtain ⟨hlen, rfl⟩ := hmem
        exact ⟨hlen, fun hc => absurd hc hma⟩
  have len5s : ∀ f : Frame, handle_servo false ch v = some f → f.length = 5 := by
    intro f h
    simp only [handle_servo] at h
    split at h
    · rename_i hcond
      simp at hcond
    · split at h
      · simp only [Option.some.injEq] at h
        subst h
        rfl
      · exact Option.noConfusion h
  have len5p : ∀ f : Frame, set_digital_pin false ch v = some f → f.length = 5 := by
    intro f h
    simp only [set_digital_pin] at h
    split at h
    · split at h
      · simp only [Option.some.injEq] at h
        subst h
        rfl
      · exact Option.noConfusion h
    · rename_i hcond
      exact absurd trivial hcond
  have sendnil : ∀ f : Frame, f.length = 5 → send_command s f = [] := by
    intro f hf
    simp [send_command, hm, hf]
  refine ⟨fun hmem => (key s2 cmd2 fr2 hmem).1,
    fun hmem => (key s cmd fr hmem).2 hm, len5s fr, ?_, len5p fr, ?_⟩
  · intro h
    rw [handle_servo_send, hm] at h
    cases heq : handle_servo false ch v with
    | none => rw [heq] at h; exact Option.noConfusion h
    | some f =>
      rw [heq] at h
      rw [Option.map_some'] at h
      rw [← Option.some.inj h]
      exact sendnil f (len5s f heq)
  · intro h
    rw [set_digital_pin_send, hm] at h
    cases heq : set_digital_pin false ch v with
    | none => rw [heq] at h; exact Option.noConfusion h
    | some f =>
      rw [heq] at h
      rw [Option.map_some'] at h
      rw [← Option.some.inj h]
      exact sendnil f (len5p f heq)

/-- C10 witness at a delimited-mode open state and the version frame. -/
theorem c10_witness :
    (([0x76, 0x0d] : Frame) ∈ send_command openState [0x76, 0x0d] →
      ([0x76, 0x0d] : Frame).length = 3) ∧
    (([0x76, 0x0d] : Frame) ∈ send_command delimState [0x76] →
      ([0x76] : Frame).length = 2) ∧
    (handle_servo false 1 100 = some [0x76, 0x0d] →
      ([0x76, 0x0d] : Frame).length = 5) ∧
    (handle_servo_send delimState 1 100 = some [] → ([] : List Frame) = []) ∧
    (set_digital_pin false 1 100 = some [0x76, 0x0d] →
      ([0x76, 0x0d] : Frame).length = 5) ∧
    (set_digital_pin_send delimState 1 100 = some [] →
      ([] : List Frame) = []) :=
  c10_delimited_never_transmits delimState openState [0x76] [0x76, 0x0d]
    [0x76, 0x0d] [0x76, 0x0d] 1 100 [] rfl

end HfosRobot
